import Mathlib

/-!
Verification of the Tabletop restaurant-reservation core: a shallow embedding of the
interval/clock utilities, the versioned record stores, the lock manager, the availability
engine and the reservation orchestrator, with theorems settling the specification claims.

Conventions of the embedding:
* JavaScript `Date` values (and ISO datetime strings, which the code freely converts back
  and forth) are modelled as `Int` milliseconds since the Unix epoch.
* Each in-memory `Map`-backed store is modelled as a `List` of records in insertion order;
  `Map.get` is `List.find?` on the id and `Map.set` on an existing key is an in-place
  replacement, matching JavaScript `Map` iteration-order semantics.
* `Partial<T>` patches are structures of `Option` fields; an absent field leaves the stored
  value unchanged, exactly as the object-spread `{...existing, ...updates}` does.
* `uuidv4()` and the wall clock are modelled as explicit `freshId` / `now` parameters.
* `Array.prototype.sort` (stable since ES2019) is modelled by a stable insertion sort
  driven by the same numeric comparator.
-/

namespace Tabletop

/-- Milliseconds in a minute; instants are `Int` milliseconds since the Unix epoch (the
value of `Date.getTime()`). -/
def msPerMinute : Int := 60000

def msPerDay : Int := 86400000

/-- Translation of `DEFAULT_DURATION_MINUTES` from the timezone utilities. -/
def DEFAULT_DURATION_MINUTES : Int := 90

/-- Translation of `addMinutes`: adds a duration in minutes to an instant. -/
def addMinutes (t : Int) (minutes : Int) : Int :=
  t + minutes * msPerMinute

/-- Translation of `calculateEndTime`: start plus duration in minutes. -/
def calculateEndTime (startTime : Int) (durationMinutes : Int) : Int :=
  addMinutes startTime durationMinutes

/-- Translation of `doTimeRangesOverlap`: half-open overlap test `s1 < e2 && s2 < e1`. -/
def doTimeRangesOverlap (s1 e1 s2 e2 : Int) : Bool :=
  decide (s1 < e2) && decide (s2 < e1)

/-- Math.ceil of the real quotient `a / b` for positive `b`, as used in wait-time math. -/
def ceilDiv (a b : Int) : Int :=
  -((-a).fdiv b)

/-- Status enum of a reservation. -/
inductive ReservationStatus
  | PENDING
  | CONFIRMED
  | SEATED
  | COMPLETED
  | CANCELLED
  | NO_SHOW
deriving DecidableEq, Repr

/-- Status enum of a table. -/
inductive TableStatus
  | AVAILABLE
  | OCCUPIED
  | RESERVED
  | CLEANING
  | OUT_OF_SERVICE
deriving DecidableEq, Repr

/-- Status enum of a waiter. -/
inductive WaiterStatus
  | AVAILABLE
  | BUSY
  | ON_BREAK
  | OFF_DUTY
deriving DecidableEq, Repr

/-- Customer record. -/
structure Customer where
  id : Nat
  name : String
  phone : Option String
  email : Option String
  notes : Option String
  createdAt : Int
  updatedAt : Int
deriving DecidableEq, Repr

/-- Table record. -/
structure Table where
  id : Nat
  number : Nat
  capacity : Int
  status : TableStatus
  createdAt : Int
  updatedAt : Int
deriving DecidableEq, Repr

/-- Waiter record. -/
structure Waiter where
  id : Nat
  name : String
  status : WaiterStatus
  assignedTables : List Nat
  createdAt : Int
  updatedAt : Int
deriving DecidableEq, Repr

/-- Reservation record, including the optimistic-locking `version` field. -/
structure Reservation where
  id : Nat
  customerId : Nat
  customerName : String
  partySize : Int
  tableId : Option Nat
  waiterId : Option Nat
  startTime : Int
  endTime : Int
  status : ReservationStatus
  isWalkIn : Bool
  timezone : String
  notes : Option String
  createdAt : Int
  updatedAt : Int
  version : Nat
deriving DecidableEq, Repr

/-- Error codes of the service layer (reservation and walk-in services). -/
inductive ErrCode
  | INVALID_PARTY_SIZE
  | INVALID_TIME
  | PAST_TIME
  | NO_AVAILABILITY
  | TABLE_NOT_FOUND
  | TABLE_UNAVAILABLE
  | RESERVATION_NOT_FOUND
  | CONCURRENT_MODIFICATION
  | INVALID_TIMEZONE
  | INVALID_STATUS_TRANSITION
  | INVALID_CUSTOMER_NAME
  | NO_AVAILABLE_TABLES
  | SYSTEM_ERROR
deriving DecidableEq, Repr

/-- A `Partial<Reservation>` patch: every field optional, as the object spread allows the
patch to mention any subset of the fields, including `id`, `createdAt` and `updatedAt`. -/
structure ReservationPatch where
  id : Option Nat := none
  customerId : Option Nat := none
  customerName : Option String := none
  partySize : Option Int := none
  tableId : Option Nat := none
  waiterId : Option Nat := none
  startTime : Option Int := none
  endTime : Option Int := none
  status : Option ReservationStatus := none
  isWalkIn : Option Bool := none
  timezone : Option String := none
  notes : Option String := none
  createdAt : Option Int := none
  updatedAt : Option Int := none
  version : Option Nat := none
deriving Repr

/-- A `Partial<Table>` patch. -/
structure TablePatch where
  id : Option Nat := none
  number : Option Nat := none
  capacity : Option Int := none
  status : Option TableStatus := none
  createdAt : Option Int := none
  updatedAt : Option Int := none
deriving Repr

/-- A `Partial<Waiter>` patch. -/
structure WaiterPatch where
  id : Option Nat := none
  name : Option String := none
  status : Option WaiterStatus := none
  assignedTables : Option (List Nat) := none
  createdAt : Option Int := none
  updatedAt : Option Int := none
deriving Repr

/-- Lookup in the reservation store (`BaseStore.getById` via the backing `Map`). -/
def getRes (items : List Reservation) (id : Nat) : Option Reservation :=
  items.find? (fun r => r.id == id)

/-- Lookup in the table store. -/
def getTable (items : List Table) (id : Nat) : Option Table :=
  items.find? (fun t => t.id == id)

/-- Lookup in the waiter store. -/
def getWaiter (items : List Waiter) (id : Nat) : Option Waiter :=
  items.find? (fun w => w.id == id)

/-- Spread semantics of `BaseStore.update` for a reservation: `{...existing, ...updates}`
followed by the forced overrides `id: existing.id`, `createdAt: existing.createdAt`,
`updatedAt: nowUTC()`. A patch field of `some v` overrides, `none` keeps the old value;
the patch fields `id`, `createdAt` and `updatedAt` are ignored by the forced overrides. -/
def applyResPatch (existing : Reservation) (p : ReservationPatch) (now : Int) :
    Reservation where
  id := existing.id
  customerId := p.customerId.getD existing.customerId
  customerName := p.customerName.getD existing.customerName
  partySize := p.partySize.getD existing.partySize
  tableId := match p.tableId with | some v => some v | none => existing.tableId
  waiterId := match p.waiterId with | some v => some v | none => existing.waiterId
  startTime := p.startTime.getD existing.startTime
  endTime := p.endTime.getD existing.endTime
  status := p.status.getD existing.status
  isWalkIn := p.isWalkIn.getD existing.isWalkIn
  timezone := p.timezone.getD existing.timezone
  notes := match p.notes with | some v => some v | none => existing.notes
  createdAt := existing.createdAt
  updatedAt := now
  version := p.version.getD existing.version

/-- Spread semantics of `BaseStore.update` for a table. -/
def applyTablePatch (existing : Table) (p : TablePatch) (now : Int) : Table where
  id := existing.id
  number := p.number.getD existing.number
  capacity := p.capacity.getD existing.capacity
  status := p.status.getD existing.status
  createdAt := existing.createdAt
  updatedAt := now

/-- Spread semantics of `BaseStore.update` for a waiter. -/
def applyWaiterPatch (existing : Waiter) (p : WaiterPatch) (now : Int) : Waiter where
  id := existing.id
  name := p.name.getD existing.name
  status := p.status.getD existing.status
  assignedTables := p.assignedTables.getD existing.assignedTables
  createdAt := existing.createdAt
  updatedAt := now

/-- Translation of `BaseStore.update` instantiated at the reservation store: looks the id
up, returns `undefined` (here `none`) without mutation when absent, otherwise stores and
returns the patched record. -/
def resStoreUpdate (items : List Reservation) (id : Nat) (p : ReservationPatch)
    (now : Int) : List Reservation × Option Reservation :=
  match items.find? (fun r => r.id == id) with
  | none => (items, none)
  | some existing =>
    let updated := applyResPatch existing p now
    (items.map (fun r => if r.id == id then updated else r), some updated)

/-- Translation of `BaseStore.update` instantiated at the table store. -/
def tableStoreUpdate (items : List Table) (id : Nat) (p : TablePatch) (now : Int) :
    List Table × Option Table :=
  match items.find? (fun t => t.id == id) with
  | none => (items, none)
  | some existing =>
    let updated := applyTablePatch existing p now
    (items.map (fun t => if t.id == id then updated else t), some updated)

/-- Translation of `BaseStore.update` instantiated at the waiter store. -/
def waiterStoreUpdate (items : List Waiter) (id : Nat) (p : WaiterPatch) (now : Int) :
    List Waiter × Option Waiter :=
  match items.find? (fun w => w.id == id) with
  | none => (items, none)
  | some existing =>
    let updated := applyWaiterPatch existing p now
    (items.map (fun w => if w.id == id then updated else w), some updated)

/-- Translation of `ReservationStore.updateWithVersion`: optimistic conditional update.
Returns `null` (here `none`) without mutation when the record is missing or the stored
version differs from `expectedVersion`; otherwise applies the patch with the version
forced to `existing.version + 1`. -/
def updateWithVersion (items : List Reservation) (id : Nat) (p : ReservationPatch)
    (expectedVersion : Nat) (now : Int) : List Reservation × Option Reservation :=
  match getRes items id with
  | none => (items, none)
  | some existing =>
    if existing.version != expectedVersion then (items, none)
    else resStoreUpdate items id { p with version := some (existing.version + 1) } now

/-- Stable insertion step for the model of `Array.prototype.sort`: the element being
inserted stems from earlier in the original array, so on a tie (`cmp x y = 0`) it keeps
its place in front, which is exactly ES2019 stable-sort behaviour. -/
def insertCmp (cmp : α → α → Int) (x : α) : List α → List α
  | [] => [x]
  | y :: ys => if cmp x y ≤ 0 then x :: y :: ys else y :: insertCmp cmp x ys

/-- Stable sort modelling `Array.prototype.sort` with a consistent numeric comparator. -/
def sortCmp (cmp : α → α → Int) (l : List α) : List α :=
  l.foldr (insertCmp cmp) []

/-- The shared in-memory stores (customerStore, tableStore, waiterStore,
reservationStore), gathered into one state record. -/
structure ServiceState where
  customers : List Customer
  tables : List Table
  waiters : List Waiter
  reservations : List Reservation
deriving Repr

/-- Translation of `ReservationStore.findByTimeRange`: keeps the reservations whose
interval meets `[startTime, endTime)` (the test `rStart < endTime && rEnd > startTime`). -/
def findByTimeRange (items : List Reservation) (startTime endTime : Int) :
    List Reservation :=
  items.filter (fun r => decide (r.startTime < endTime) && decide (r.endTime > startTime))

/-- Shared status filter of the availability paths: a reservation counts as active unless
it is CANCELLED, COMPLETED or NO_SHOW. -/
def isActiveStatus (st : ReservationStatus) : Bool :=
  !(st == .CANCELLED) && !(st == .COMPLETED) && !(st == .NO_SHOW)

/-- Comparator `(a, b) => a.capacity - b.capacity` used to sort eligible tables. -/
def capacityCmp (a b : Table) : Int :=
  a.capacity - b.capacity

/-- Translation of `findAvailableTables` (reservationService): tables of sufficient
capacity, not OUT_OF_SERVICE, with no overlapping active reservation (optionally ignoring
one reservation id), sorted by capacity ascending. -/
def findAvailableTables (s : ServiceState) (startTime endTime : Int) (partySize : Int)
    (excludeReservationId : Option Nat) : List Table :=
  let suitableTables := s.tables.filter (fun t => decide (t.capacity ≥ partySize))
  let activeTables := suitableTables.filter (fun t => !(t.status == .OUT_OF_SERVICE))
  let overlappingReservations := (findByTimeRange s.reservations startTime endTime).filter
    (fun r => isActiveStatus r.status && !(some r.id == excludeReservationId))
  let availableTables := activeTables.filter
    (fun t => (overlappingReservations.filter (fun r => r.tableId == some t.id)).length == 0)
  sortCmp capacityCmp availableTables

/-- Platform view of an IANA timezone: whether `Intl.DateTimeFormat` accepts the
identifier, and the UTC offset (in milliseconds, east positive) it applies at a given
instant. The repository consults the timezone database only through these two facets. -/
structure Timezone where
  valid : Bool
  offsetMs : Int → Int

/-- The `DEFAULT_TIMEZONE` identifier resolves to UTC: always valid, zero offset. -/
def UTC_TIMEZONE : Timezone where
  valid := true
  offsetMs := fun _ => 0

/-- Availability check request; a missing timezone defaults to `DEFAULT_TIMEZONE` and a
missing duration defaults to `DEFAULT_DURATION_MINUTES`. -/
structure AvailabilityRequest where
  startTime : Int
  partySize : Int
  timezone : Option Timezone
  durationMinutes : Option Int

/-- Availability slot result record. -/
structure AvailabilitySlot where
  tableId : Nat
  tableNumber : Nat
  tableCapacity : Int
  startTime : Int
  endTime : Int
  isAvailable : Bool
deriving DecidableEq, Repr

/-- Slot record built for a table over a window, always marked available. -/
def mkSlot (t : Table) (startTime endTime : Int) : AvailabilitySlot where
  tableId := t.id
  tableNumber := t.number
  tableCapacity := t.capacity
  startTime := startTime
  endTime := endTime
  isAvailable := true

/-- Translation of `checkAvailability` (reservationService): validates the timezone,
computes the window end from the (defaulted) duration, and returns one slot per table
found by `findAvailableTables`. The source performs no party-size bounds check here. -/
def checkAvailability (s : ServiceState) (request : AvailabilityRequest) :
    Except ErrCode (List AvailabilitySlot) :=
  let tz := request.timezone.getD UTC_TIMEZONE
  if !tz.valid then .error .INVALID_TIMEZONE
  else
    let duration := request.durationMinutes.getD DEFAULT_DURATION_MINUTES
    let endTime := calculateEndTime request.startTime duration
    let availableTables := findAvailableTables s request.startTime endTime request.partySize none
    .ok (availableTables.map (fun t => mkSlot t request.startTime endTime))

/-- Translation of `isValidStatusTransition`: the allowed-transition table. -/
def isValidStatusTransition (src dst : ReservationStatus) : Bool :=
  (match src with
   | .PENDING => [ReservationStatus.CONFIRMED, .CANCELLED]
   | .CONFIRMED => [ReservationStatus.SEATED, .CANCELLED, .NO_SHOW]
   | .SEATED => [ReservationStatus.COMPLETED]
   | .COMPLETED => []
   | .CANCELLED => []
   | .NO_SHOW => []).contains dst

/-- Patch `{ status: newStatus }` passed by `updateReservationStatus`. -/
def statusPatch (st : ReservationStatus) : ReservationPatch :=
  { status := some st }

/-- Table patch `{ status }` used by the orchestrator side effects. -/
def tableStatusPatch (st : TableStatus) : TablePatch :=
  { status := some st }

/-- Translation of `updateReservationStatus`: fetch, validate the transition, apply the
optimistic conditional update, then flip the table OCCUPIED on SEATED or CLEANING on a
terminal status. The `setTimeout` that later flips CLEANING to AVAILABLE is a deferred
task outside the synchronous step and is not part of the returned state. -/
def updateReservationStatus (s : ServiceState) (id : Nat)
    (newStatus : ReservationStatus) (expectedVersion : Nat) (now : Int) :
    ServiceState × Except ErrCode Reservation :=
  match getRes s.reservations id with
  | none => (s, .error .RESERVATION_NOT_FOUND)
  | some existing =>
    if !(isValidStatusTransition existing.status newStatus) then
      (s, .error .INVALID_STATUS_TRANSITION)
    else
      match updateWithVersion s.reservations id (statusPatch newStatus) expectedVersion now with
      | (_, none) => (s, .error .CONCURRENT_MODIFICATION)
      | (items', some updated) =>
        let s' : ServiceState := { s with reservations := items' }
        match updated.tableId with
        | none => (s', .ok updated)
        | some tid =>
          if newStatus == .SEATED then
            ({ s' with tables := (tableStoreUpdate s'.tables tid (tableStatusPatch .OCCUPIED) now).1 },
             .ok updated)
          else if newStatus == .COMPLETED || newStatus == .CANCELLED || newStatus == .NO_SHOW then
            ({ s' with tables := (tableStoreUpdate s'.tables tid (tableStatusPatch .CLEANING) now).1 },
             .ok updated)
          else (s', .ok updated)

/-- Walk-in request. -/
structure WalkInRequest where
  customerName : String
  partySize : Int
  notes : Option String

/-- Walk-in result with the assigned resources. -/
structure WalkInResult where
  reservation : Reservation
  table : Table
  waiter : Option Waiter
deriving Repr

/-- Whitespace trim of `String.trim`, modelled on the character list. -/
def trimChars (l : List Char) : List Char :=
  ((l.dropWhile Char.isWhitespace).reverse.dropWhile Char.isWhitespace).reverse

/-- Translation of `validateWalkInRequest`: empty (or all-blank) name, then party size
below 1 (the falsy check `!request.partySize` also lands here), then above 20. -/
def validateWalkInRequest (request : WalkInRequest) : Option ErrCode :=
  if (trimChars request.customerName.data).length == 0 then some .INVALID_CUSTOMER_NAME
  else if decide (request.partySize < 1) then some .INVALID_PARTY_SIZE
  else if decide (request.partySize > 20) then some .INVALID_PARTY_SIZE
  else none

/-- Translation of `TableStore.findAvailableForPartySize`: status AVAILABLE and capacity
at least the party size. -/
def findAvailableForPartySize (tables : List Table) (partySize : Int) : List Table :=
  tables.filter (fun t => t.status == .AVAILABLE && decide (t.capacity ≥ partySize))

/-- Walk-in table comparator: exact capacity match first, then smaller capacity first. -/
def walkInCmp (partySize : Int) (a b : Table) : Int :=
  let aExact : Int := if a.capacity == partySize then 0 else 1
  let bExact : Int := if b.capacity == partySize then 0 else 1
  if aExact != bExact then aExact - bExact else a.capacity - b.capacity

/-- Translation of `findBestTableForWalkIn`: among AVAILABLE tables of sufficient
capacity, the head after sorting by the exact-match-then-capacity comparator. -/
def findBestTableForWalkIn (tables : List Table) (partySize : Int) : Option Table :=
  match sortCmp (walkInCmp partySize) (findAvailableForPartySize tables partySize) with
  | [] => none
  | t :: _ => some t

/-- Translation of `WaiterStore.findByStatus`. -/
def findWaitersByStatus (ws : List Waiter) (st : WaiterStatus) : List Waiter :=
  ws.filter (fun w => w.status == st)

/-- The `reduce` in `findWithLeastTables`: first waiter with strictly fewest assigned
tables (strict `<` keeps the earlier element on ties). -/
def leastLoaded : List Waiter → Option Waiter
  | [] => none
  | w :: rest =>
    some (rest.foldl
      (fun m x => if x.assignedTables.length < m.assignedTables.length then x else m) w)

/-- Translation of `WaiterStore.findWithLeastTables`: least-loaded AVAILABLE waiter,
falling back to BUSY waiters only when no AVAILABLE waiter exists. -/
def findWithLeastTables (ws : List Waiter) : Option Waiter :=
  match leastLoaded (findWaitersByStatus ws .AVAILABLE) with
  | some w => some w
  | none => leastLoaded (findWaitersByStatus ws .BUSY)

/-- Translation of `WaiterStore.assignTable`: adds the table to the waiter and marks the
waiter BUSY, unless the table is already assigned; no-op on a missing waiter id. -/
def assignTable (ws : List Waiter) (waiterId tableId : Nat) (now : Int) : List Waiter :=
  match getWaiter ws waiterId with
  | none => ws
  | some waiter =>
    if waiter.assignedTables.contains tableId then ws
    else
      (waiterStoreUpdate ws waiterId
        { assignedTables := some (waiter.assignedTables ++ [tableId]),
          status := some .BUSY } now).1

/-- Translation of `assignWaiterToTable` (walk-in service): picks the least-loaded
waiter, assigns the table, and re-reads the waiter record. -/
def assignWaiterToTable (ws : List Waiter) (tableId : Nat) (now : Int) :
    List Waiter × Option Waiter :=
  match findWithLeastTables ws with
  | none => (ws, none)
  | some waiter =>
    let ws' := assignTable ws waiter.id tableId now
    (ws', getWaiter ws' waiter.id)

/-- Translation of `CustomerStore.create` via `BaseStore.create`: fresh id, both
timestamps set to now. -/
def customerCreate (cs : List Customer) (freshId : Nat) (name : String)
    (phone email notes : Option String) (now : Int) : List Customer × Customer :=
  let c : Customer :=
    { id := freshId, name := name, phone := phone, email := email, notes := notes,
      createdAt := now, updatedAt := now }
  (cs ++ [c], c)

/-- Translation of `handleWalkIn`. The lock key is freshly time-stamped
(`walkin` + `Date.now()`), so in this sequential model the `withLock` wrapper acquires a
fresh key, runs the body and releases; its net effect on the stores is the body itself.
Thrown business errors become the error result, as the wrapper maps them. Fresh uuids for
the customer and the reservation are explicit parameters. -/
def handleWalkIn (s : ServiceState) (request : WalkInRequest) (now : Int)
    (freshCustomerId freshReservationId : Nat) :
    ServiceState × Except ErrCode WalkInResult :=
  match validateWalkInRequest request with
  | some e => (s, .error e)
  | none =>
    match findBestTableForWalkIn s.tables request.partySize with
    | none => (s, .error .NO_AVAILABLE_TABLES)
    | some table =>
      let (customers', customer) :=
        customerCreate s.customers freshCustomerId request.customerName
          none none (some "Walk-in customer") now
      let startTime := now
      let endTime := calculateEndTime startTime DEFAULT_DURATION_MINUTES
      let (waiters', waiter) := assignWaiterToTable s.waiters table.id now
      let reservation : Reservation :=
        { id := freshReservationId, customerId := customer.id,
          customerName := request.customerName, partySize := request.partySize,
          tableId := some table.id, waiterId := waiter.map (fun w => w.id),
          startTime := startTime, endTime := endTime, status := .SEATED,
          isWalkIn := true, timezone := "UTC",
          notes := some (request.notes.getD "Walk-in"),
          createdAt := now, updatedAt := now, version := 1 }
      let reservations' := s.reservations ++ [reservation]
      let tables' := (tableStoreUpdate s.tables table.id (tableStatusPatch .OCCUPIED) now).1
      ({ customers := customers', tables := tables', waiters := waiters',
         reservations := reservations' },
       .ok { reservation := reservation,
             table := (getTable tables' table.id).getD table,
             waiter := waiter })

/-- Wait-time estimate record `{ minutes, message }`. -/
structure WaitEstimate where
  minutes : Int
  message : String
deriving DecidableEq, Repr

/-- Comparator `(a, b) => endTime(a) - endTime(b)` used on seated reservations. -/
def endTimeCmp (a b : Reservation) : Int :=
  a.endTime - b.endTime

/-- The seated reservations occupying a table of sufficient capacity, as filtered inside
`getEstimatedWaitTime` (a missing table id looks up nothing and is dropped). -/
def seatedEligible (s : ServiceState) (partySize : Int) : List Reservation :=
  (s.reservations.filter (fun r => r.status == .SEATED)).filter
    (fun r =>
      match r.tableId with
      | none => false
      | some tid =>
        match getTable s.tables tid with
        | none => false
        | some t => decide (t.capacity ≥ partySize))

/-- Translation of `getEstimatedWaitTime`: zero when a fitting table is AVAILABLE;
otherwise the earliest end of a seated eligible reservation, clamped and ceiled to
minutes; otherwise the sentinel `-1` with an explanatory message. -/
def getEstimatedWaitTime (s : ServiceState) (partySize : Int) (now : Int) :
    WaitEstimate :=
  let availableTables := findAvailableForPartySize s.tables partySize
  if availableTables.length > 0 then
    { minutes := 0, message := "Tables available now!" }
  else
    match sortCmp endTimeCmp (seatedEligible s partySize) with
    | [] =>
      { minutes := -1,
        message := "Unable to estimate wait time. All tables are occupied with no scheduled end time." }
    | nextAvailable :: _ =>
      let waitMinutes := max 0 (ceilDiv (nextAvailable.endTime - now) msPerMinute)
      { minutes := waitMinutes,
        message :=
          if waitMinutes ≤ 15 then "Short wait expected"
          else "Estimated wait: approximately " ++ toString waitMinutes ++ " minutes" }

/-- Resource kind of a lock key. -/
inductive ResourceType
  | table
  | reservation
  | timeslot
deriving DecidableEq, Repr

/-- Value stored in the lock map for a key. -/
structure LockInfo where
  lockedBy : String
  lockedAt : Int
  expiresAt : Int
deriving DecidableEq, Repr

/-- Compound lock key (resource kind, resource id). -/
abbrev LockKey := ResourceType × String

/-- The in-memory lock map `locks : Map<string, ResourceLock>`, in insertion order. -/
abbrev LockMap := List (LockKey × LockInfo)

/-- Translation of `DEFAULT_LOCK_TIMEOUT_MINUTES`. -/
def DEFAULT_LOCK_TIMEOUT_MINUTES : Int := 2

/-- The string `getLockKey` builds for a key. -/
def lockKeyStr (k : LockKey) : String :=
  (match k.1 with
   | .table => "table"
   | .reservation => "reservation"
   | .timeslot => "timeslot") ++ ":" ++ k.2

/-- Lookup `locks.get(key)`: the first (in a JS `Map`, the only) entry with this key. -/
def lockFind : LockMap → LockKey → Option LockInfo
  | [], _ => none
  | e :: rest, k => if e.1 == k then some e.2 else lockFind rest k

/-- `locks.set(key, lock)`: in-place replacement when the key exists (a `Map` holds at
most one entry per key), append otherwise. -/
def lockSet : LockMap → LockKey → LockInfo → LockMap
  | [], k, v => [(k, v)]
  | e :: rest, k, v => if e.1 == k then (k, v) :: rest else e :: lockSet rest k v

/-- `locks.delete(key)`: removes the entry with this key. -/
def lockDelete : LockMap → LockKey → LockMap
  | [], _ => []
  | e :: rest, k => if e.1 == k then lockDelete rest k else e :: lockDelete rest k

/-- Translation of `acquireLock`: fails without mutation when a non-expired lock of a
different owner exists; otherwise (no lock, expired lock, or re-entrant same owner)
writes a fresh lock expiring `timeoutMinutes` from now. -/
def acquireLock (m : LockMap) (k : LockKey) (lockOwner : String)
    (timeoutMinutes : Int) (now : Int) : LockMap × Bool :=
  let newLock : LockInfo :=
    { lockedBy := lockOwner, lockedAt := now, expiresAt := addMinutes now timeoutMinutes }
  match lockFind m k with
  | some existingLock =>
    if decide (existingLock.expiresAt > now) && !(existingLock.lockedBy == lockOwner) then
      (m, false)
    else (lockSet m k newLock, true)
  | none => (lockSet m k newLock, true)

/-- Translation of `releaseLock`: success when no lock exists; failure without mutation
when the lock is held by a different owner; otherwise deletes the entry. -/
def releaseLock (m : LockMap) (k : LockKey) (lockOwner : String) : LockMap × Bool :=
  match lockFind m k with
  | none => (m, true)
  | some existingLock =>
    if !(existingLock.lockedBy == lockOwner) then (m, false)
    else (lockDelete m k, true)

/-- The rollback loop of `acquireMultipleLocks`: releases each acquired lock in
acquisition order. -/
def rollbackLocks (lockOwner : String) : LockMap → List LockKey → LockMap
  | m, [] => m
  | m, k :: ks => rollbackLocks lockOwner (releaseLock m k lockOwner).1 ks

/-- Lexicographic order on character lists by code point, the order `localeCompare`
induces on the ASCII lock-key strings. -/
def charListLt : List Char → List Char → Bool
  | [], [] => false
  | [], _ :: _ => true
  | _ :: _, [] => false
  | c1 :: r1, c2 :: r2 =>
    if c1.val < c2.val then true
    else if c2.val < c1.val then false
    else charListLt r1 r2

/-- String comparison modelling `localeCompare` on the ASCII lock-key strings: negative,
zero or positive by lexicographic order. -/
def strCmp (a b : String) : Int :=
  if charListLt a.data b.data then -1 else if charListLt b.data a.data then 1 else 0

/-- Acquisition loop of `acquireMultipleLocks` over the sorted keys, carrying the
`acquiredLocks` list; on the first failure, rolls the acquired locks back and reports
aggregate failure. -/
def acqLoop (lockOwner : String) (timeoutMinutes : Int) (now : Int) :
    LockMap → List LockKey → List LockKey → LockMap × Bool
  | m, _, [] => (m, true)
  | m, acquired, k :: ks =>
    let res := acquireLock m k lockOwner timeoutMinutes now
    if res.2 then acqLoop lockOwner timeoutMinutes now res.1 (acquired ++ [k]) ks
    else (rollbackLocks lockOwner res.1 acquired, false)

/-- Translation of `acquireMultipleLocks`: sorts the requested keys by their
`type:id` strings (deadlock-avoiding canonical order), then acquires sequentially with
rollback on first failure. -/
def acquireMultipleLocks (m : LockMap) (resources : List LockKey) (lockOwner : String)
    (timeoutMinutes : Int) (now : Int) : LockMap × Bool :=
  let sortedResources := sortCmp (fun a b => strCmp (lockKeyStr a) (lockKeyStr b)) resources
  acqLoop lockOwner timeoutMinutes now m [] sortedResources

/-- Translation of `isTableAvailable` (availabilityService): the table exists, is not
OUT_OF_SERVICE, and has no active reservation meeting the window. -/
def isTableAvailable (s : ServiceState) (tableId : Nat) (startTime endTime : Int) :
    Bool :=
  match getTable s.tables tableId with
  | none => false
  | some table =>
    if table.status == .OUT_OF_SERVICE then false
    else
      ((findByTimeRange s.reservations startTime endTime).filter
        (fun r => r.tableId == some tableId && isActiveStatus r.status)).length == 0

/-- Translation of `SLOT_DURATION_MINUTES`. -/
def SLOT_DURATION_MINUTES : Int := 30

/-- The capacity-and-service filter `getNextAvailableSlot` applies to the table store. -/
def suitableTablesFor (s : ServiceState) (partySize : Int) : List Table :=
  (s.tables.filter (fun t => decide (t.capacity ≥ partySize))).filter
    (fun t => !(t.status == .OUT_OF_SERVICE))

/-- Inner `for` loop of the slot search: the first suitable table available over the
window, if any. -/
def firstAvailableTable (s : ServiceState) (suitable : List Table)
    (startTime endTime : Int) : Option Table :=
  suitable.find? (fun t => isTableAvailable s t.id startTime endTime)

/-- The `while (checkTime < searchEnd)` loop of `getNextAvailableSlot`: probes the
current instant, else steps forward by `SLOT_DURATION_MINUTES`; terminates because the
gap to `searchEnd` shrinks by a fixed positive amount each iteration. -/
def searchSlots (s : ServiceState) (suitable : List Table) (durationMinutes : Int)
    (checkTime searchEnd : Int) : Option AvailabilitySlot :=
  if h : checkTime < searchEnd then
    let slotEnd := addMinutes checkTime durationMinutes
    match firstAvailableTable s suitable checkTime slotEnd with
    | some t => some (mkSlot t checkTime slotEnd)
    | none => searchSlots s suitable durationMinutes
        (addMinutes checkTime SLOT_DURATION_MINUTES) searchEnd
  else none
termination_by (searchEnd - checkTime).toNat
decreasing_by
  simp only [addMinutes, SLOT_DURATION_MINUTES, msPerMinute]
  omega

/-- Translation of `getNextAvailableSlot`: with no suitable table the result is an
immediate empty success; otherwise `fromTime` is probed first and then the bounded
24-hour forward search runs in 30-minute steps. -/
def getNextAvailableSlot (s : ServiceState) (partySize : Int) (fromTime : Int)
    (durationMinutes : Int) : Except ErrCode (Option AvailabilitySlot) :=
  let suitableTables := suitableTablesFor s partySize
  if suitableTables.length == 0 then .ok none
  else
    let endTime := addMinutes fromTime durationMinutes
    match firstAvailableTable s suitableTables fromTime endTime with
    | some t => .ok (some (mkSlot t fromTime endTime))
    | none =>
      let searchEnd := addMinutes fromTime (24 * 60)
      .ok (searchSlots s suitableTables durationMinutes
        (addMinutes fromTime SLOT_DURATION_MINUTES) searchEnd)

/-- Day index (days since the epoch) of the calendar date `Intl.DateTimeFormat` with the
given timezone prints for an instant: floor-divide the offset-shifted instant by a day. -/
def localDayIndex (tz : Timezone) (t : Int) : Int :=
  (t + tz.offsetMs t).fdiv msPerDay

/-- Translation of `getDayBoundsInTimezone`: throws (here `none`) on an invalid
timezone; otherwise derives the calendar date observed in the timezone and anchors the
bounds at `Date.UTC(y, m-1, d, 0,0,0,0)` and `Date.UTC(y, m-1, d, 23,59,59,999)` — the
UTC midnight of that calendar date, and an end one millisecond short of the next one. -/
def getDayBoundsInTimezone (tz : Timezone) (t : Int) : Option (Int × Int) :=
  if !tz.valid then none
  else
    let d := localDayIndex tz t
    some (d * msPerDay, d * msPerDay + (msPerDay - 1))

/-- Modelled from the spec: `dayBounds(date, timezone)` returns `[midnight, midnight+24h)`
where midnight is the timezone's actual local midnight of the calendar day observed in
that timezone. For a fixed-offset timezone the local midnight of day `d` is the instant
`d * msPerDay - offset`. -/
def dayBoundsSpec (offset : Int) (t : Int) : Int × Int :=
  let d := (t + offset).fdiv msPerDay
  (d * msPerDay - offset, d * msPerDay - offset + msPerDay)

/-- A reservation counts towards the exclusivity invariant unless CANCELLED, COMPLETED
or NO_SHOW. -/
def activeReservation (r : Reservation) : Bool :=
  isActiveStatus r.status

/-- Two reservations conflict when both are active, sit on the same (present) table, and
their half-open intervals overlap. -/
def conflictB (r1 r2 : Reservation) : Bool :=
  activeReservation r1 && activeReservation r2 && r1.tableId.isSome &&
    r1.tableId == r2.tableId &&
    doTimeRangesOverlap r1.startTime r1.endTime r2.startTime r2.endTime

/-- The exclusivity invariant of the spec: pairwise, no two active reservations of the
same table have overlapping intervals. -/
def intervalsDisjoint : List Reservation → Bool
  | [] => true
  | r :: rest => rest.all (fun r2 => !(conflictB r r2)) && intervalsDisjoint rest

/-- A lock entry at `k` poses no obstacle to `owner` at `now`: it is absent, expired, or
already owned by `owner`. This is exactly the success condition of `acquireLock`. -/
def reclaimableBy (m : LockMap) (owner : String) (now : Int) (k : LockKey) : Prop :=
  ∀ l, lockFind m k = some l → l.expiresAt ≤ now ∨ l.lockedBy = owner

/-- Bounded reformulation of the forward search: first slot produced by probing a given
finite list of instants, used to characterise `getNextAvailableSlot`. -/
def probeSlots (s : ServiceState) (suitable : List Table) (durationMinutes : Int)
    (ts : List Int) : Option AvailabilitySlot :=
  ts.findSome? (fun t =>
    (firstAvailableTable s suitable t (addMinutes t durationMinutes)).map
      (fun tb => mkSlot tb t (addMinutes t durationMinutes)))

/-- The complete list of instants `getNextAvailableSlot` ever probes: `fromTime` itself,
then 47 steps of 30 minutes (the last one 23.5 h after `fromTime`), all strictly below
the 24-hour horizon. -/
def probeTimes (fromTime : Int) : List Int :=
  fromTime :: (List.range 47).map
    (fun (k : Nat) => addMinutes fromTime SLOT_DURATION_MINUTES +
      (k : Int) * (SLOT_DURATION_MINUTES * msPerMinute))

/-- Example reservation record. -/
def rW : Reservation where
  id := 1
  customerId := 2
  customerName := "Ann"
  partySize := 4
  tableId := some 3
  waiterId := none
  startTime := 1000
  endTime := 2000
  status := .CONFIRMED
  isWalkIn := false
  timezone := "UTC"
  notes := none
  createdAt := 10
  updatedAt := 10
  version := 1

/-- Example patch that tries to overwrite the protected `id`, `createdAt` and
`updatedAt` fields while changing the status. -/
def pW : ReservationPatch :=
  { id := some 999, createdAt := some 999, updatedAt := some 999, status := some .SEATED }

/-- Example state whose only reservation is `rW` (CONFIRMED, version 1). -/
def sC2 : ServiceState where
  customers := []
  tables := []
  waiters := []
  reservations := [rW]

/-- Example state whose only reservation is in the terminal COMPLETED status. -/
def sC3 : ServiceState where
  customers := []
  tables := [{ id := 3, number := 1, capacity := 4, status := .RESERVED,
               createdAt := 0, updatedAt := 0 }]
  waiters := []
  reservations := [{ rW with id := 5, status := .COMPLETED }]

/-- Example lock map: key (table, t1) held by owner A until instant 120000. -/
def mW : LockMap :=
  [((ResourceType.table, "t1"),
    { lockedBy := "A", lockedAt := 0, expiresAt := 120000 })]

/-- Example lock map for the multi-acquire rollback scenario: owner A validly holds
(table, a) and owner B validly holds (table, b). -/
def mC5 : LockMap :=
  [((ResourceType.table, "a"), { lockedBy := "A", lockedAt := 0, expiresAt := 100000 }),
   ((ResourceType.table, "b"), { lockedBy := "B", lockedAt := 0, expiresAt := 100000 })]

/-- Example state for the walk-in scenario: one AVAILABLE table of capacity 2 that
already carries a future CONFIRMED reservation over [1800000, 5400000). -/
def stateC1 : ServiceState where
  customers := []
  tables := [{ id := 1, number := 1, capacity := 2, status := .AVAILABLE,
               createdAt := 0, updatedAt := 0 }]
  waiters := []
  reservations := [{ id := 100, customerId := 50, customerName := "Early Bird",
                     partySize := 2, tableId := some 1, waiterId := none,
                     startTime := 1800000, endTime := 5400000, status := .CONFIRMED,
                     isWalkIn := false, timezone := "UTC", notes := none,
                     createdAt := 0, updatedAt := 0, version := 1 }]

/-- Walk-in request for two guests. -/
def reqC1 : WalkInRequest where
  customerName := "Bob"
  partySize := 2
  notes := none

/-- Fixed-offset timezone one hour east of UTC (Europe/Paris in winter). -/
def tzC6 : Timezone where
  valid := true
  offsetMs := fun _ => 3600000

/-- Example AVAILABLE table of capacity 2. -/
def tC7 : Table where
  id := 1
  number := 1
  capacity := 2
  status := .AVAILABLE
  createdAt := 0
  updatedAt := 0

/-- Example state with a single AVAILABLE table of capacity 2. -/
def stateC7 : ServiceState where
  customers := []
  tables := [tC7]
  waiters := []
  reservations := []

/-- Availability request with party size 0 (below the documented bound). -/
def reqC7 : AvailabilityRequest where
  startTime := 1000
  partySize := 0
  timezone := none
  durationMinutes := none

/-- In-bounds availability request for two guests. -/
def reqC7b : AvailabilityRequest where
  startTime := 1000
  partySize := 2
  timezone := none
  durationMinutes := none

/-- Example state where the single fitting table is OCCUPIED and no reservation is
SEATED: the wait time cannot be estimated. -/
def stateC8 : ServiceState where
  customers := []
  tables := [{ id := 1, number := 1, capacity := 2, status := .OCCUPIED,
               createdAt := 0, updatedAt := 0 }]
  waiters := []
  reservations := []

/-- Example state where the single fitting table is OCCUPIED by a SEATED reservation
ending at instant 720000 (12 minutes after instant 0). -/
def stateC8b : ServiceState where
  customers := []
  tables := [{ id := 1, number := 1, capacity := 2, status := .OCCUPIED,
               createdAt := 0, updatedAt := 0 }]
  waiters := []
  reservations := [{ id := 100, customerId := 50, customerName := "Seated Guest",
                     partySize := 2, tableId := some 1, waiterId := none,
                     startTime := 0, endTime := 720000, status := .SEATED,
                     isWalkIn := true, timezone := "UTC", notes := none,
                     createdAt := 0, updatedAt := 0, version := 1 }]

/-- Example state whose only table is too small for a party of 5. -/
def stateC9 : ServiceState where
  customers := []
  tables := [{ id := 1, number := 1, capacity := 1, status := .AVAILABLE,
               createdAt := 0, updatedAt := 0 }]
  waiters := []
  reservations := []

/-! Theorems. -/

/-- A successful store lookup returns a record bearing the looked-up id. -/
lemma getRes_id (items : List Reservation) (id : Nat) (existing : Reservation)
    (h : getRes items id = some existing) : existing.id = id := by
  have := List.find?_some h
  simpa using this

/-- Computation of `resStoreUpdate` when the id is present. -/
lemma resStoreUpdate_found (items : List Reservation) (id : Nat) (p : ReservationPatch)
    (now : Int) (existing : Reservation)
    (hfind : getRes items id = some existing) :
    resStoreUpdate items id p now =
      (items.map (fun r => if r.id == id then applyResPatch existing p now else r),
       some (applyResPatch existing p now)) := by
  have hfind' : items.find? (fun r => r.id == id) = some existing := hfind
  simp only [resStoreUpdate, hfind']

/-- Replacing the record keyed `id` leaves every lookup of a different key unchanged. -/
lemma getRes_map_replace (items : List Reservation) (id k : Nat) (u : Reservation)
    (hu : u.id = id) (hk : k ≠ id) :
    getRes (items.map (fun r => if r.id == id then u else r)) k = getRes items k := by
  induction items with
  | nil => rfl
  | cons r rest ih =>
    simp only [getRes, List.map_cons, List.find?_cons] at ih ⊢
    by_cases hr : r.id = id
    · have hru : (if (r.id == id) = true then u else r) = u := by simp [hr]
      rw [hru]
      have h2 : (u.id == k) = false := by rw [hu]; simp [Ne.symm hk]
      have h3 : (r.id == k) = false := by rw [hr]; simp [Ne.symm hk]
      simp only [h2, h3]
      exact ih
    · have hru : (if (r.id == id) = true then u else r) = r := by simp [hr]
      rw [hru]
      cases hrk : (r.id == k) <;> simp only [hrk]
      all_goals first
        | rfl
        | exact ih

/-- Claim C10: `BaseStore.update` keeps `id` and `createdAt` from the stored record even when
the patch tries to overwrite them, changes exactly the patched fields, refreshes
`updatedAt`, leaves every other record untouched, and on a nonexistent id returns
`undefined` without any mutation. -/
theorem resStore_update_preserves_identity (items : List Reservation) (id : Nat)
    (p : ReservationPatch) (now : Int) :
    (getRes items id = none → resStoreUpdate items id p now = (items, none)) ∧
    (∀ existing, getRes items id = some existing →
      (resStoreUpdate items id p now).2 = some (applyResPatch existing p now) ∧
      (applyResPatch existing p now).id = existing.id ∧
      (applyResPatch existing p now).createdAt = existing.createdAt ∧
      (applyResPatch existing p now).updatedAt = now ∧
      (applyResPatch existing p now).customerId = p.customerId.getD existing.customerId ∧
      (applyResPatch existing p now).customerName
        = p.customerName.getD existing.customerName ∧
      (applyResPatch existing p now).partySize = p.partySize.getD existing.partySize ∧
      (applyResPatch existing p now).startTime = p.startTime.getD existing.startTime ∧
      (applyResPatch existing p now).endTime = p.endTime.getD existing.endTime ∧
      (applyResPatch existing p now).status = p.status.getD existing.status ∧
      (applyResPatch existing p now).version = p.version.getD existing.version ∧
      (∀ k, k ≠ id →
        getRes (resStoreUpdate items id p now).1 k = getRes items k)) := by
  constructor
  · intro hnone
    simp only [resStoreUpdate]
    simp only [getRes] at hnone
    rw [hnone]
  · intro existing hsome
    have hfind : items.find? (fun r => r.id == id) = some existing := hsome
    have hid : existing.id = id := by
      have := List.find?_some hfind
      simpa using this
    constructor
    · simp only [resStoreUpdate, hfind]
    constructor
    · rfl
    constructor
    · rfl
    constructor
    · rfl
    constructor
    · rfl
    constructor
    · rfl
    constructor
    · rfl
    constructor
    · rfl
    constructor
    · rfl
    constructor
    · rfl
    constructor
    · rfl
    · intro k hk
      simp only [resStoreUpdate, hfind]
      exact getRes_map_replace items id k (applyResPatch existing p now)
        (by rw [applyResPatch, hid]) hk

/-- Witness for C10 at a concrete record and a patch that carries `id`, `createdAt` and
`updatedAt` fields: the protected fields survive. -/
theorem resStore_update_preserves_identity_witness :
    getRes [rW] 1 = some rW ∧
    (resStoreUpdate [rW] 1 pW 500).2 = some (applyResPatch rW pW 500) ∧
    (applyResPatch rW pW 500).id = rW.id ∧
    (applyResPatch rW pW 500).createdAt = rW.createdAt ∧
    (applyResPatch rW pW 500).updatedAt = 500 := by
  have h := (resStore_update_preserves_identity [rW] 1 pW 500).2 rW (by rfl)
  exact ⟨by rfl, h.1, h.2.1, h.2.2.1, h.2.2.2.1⟩

/-- Claim C2: for a stored reservation, a conditional update with a stale expected version
mutates nothing and surfaces as `CONCURRENT_MODIFICATION` through
`updateReservationStatus`; with the matching version it applies the patch, bumps the
version to exactly `storedVersion + 1`, refreshes `updatedAt`, returns the new snapshot,
and touches no other record. -/
theorem updateWithVersion_conditional (items : List Reservation) (id : Nat)
    (p : ReservationPatch) (expectedVersion : Nat) (now : Int) (existing : Reservation)
    (hsome : getRes items id = some existing) :
    (existing.version ≠ expectedVersion →
      updateWithVersion items id p expectedVersion now = (items, none)) ∧
    (existing.version = expectedVersion →
      (updateWithVersion items id p expectedVersion now).2
        = some (applyResPatch existing
            { p with version := some (existing.version + 1) } now) ∧
      (applyResPatch existing { p with version := some (existing.version + 1) } now).version
        = existing.version + 1 ∧
      (applyResPatch existing { p with version := some (existing.version + 1) } now).updatedAt
        = now ∧
      (∀ k, k ≠ id →
        getRes (updateWithVersion items id p expectedVersion now).1 k
          = getRes items k)) ∧
    (∀ s : ServiceState, s.reservations = items →
      ∀ newStatus, isValidStatusTransition existing.status newStatus = true →
        existing.version ≠ expectedVersion →
        updateReservationStatus s id newStatus expectedVersion now
          = (s, .error .CONCURRENT_MODIFICATION)) := by
  refine ⟨?_, ?_, ?_⟩
  · intro hv
    have hbne : (existing.version != expectedVersion) = true := by simp [hv]
    simp only [updateWithVersion, hsome, hbne, if_pos]
  · intro hv
    have hbne : (existing.version != expectedVersion) = false := by simp [hv]
    have hupd := resStoreUpdate_found items id
      { p with version := some (existing.version + 1) } now existing hsome
    refine ⟨?_, rfl, rfl, ?_⟩
    · simp only [updateWithVersion, hsome, hbne, Bool.false_eq_true, if_neg,
        not_false_iff, hupd]
    · intro k hk
      simp only [updateWithVersion, hsome, hbne, Bool.false_eq_true, if_neg,
        not_false_iff, hupd]
      exact getRes_map_replace items id k _
        (by rw [applyResPatch, getRes_id items id existing hsome]) hk
  · intro s hs newStatus htrans hv
    have hbne : (existing.version != expectedVersion) = true := by simp [hv]
    have hcond : updateWithVersion s.reservations id (statusPatch newStatus)
        expectedVersion now = (s.reservations, none) := by
      rw [hs]
      simp only [updateWithVersion, hsome, hbne, if_pos]
    have hsome' : getRes s.reservations id = some existing := by rw [hs]; exact hsome
    simp only [updateReservationStatus, hsome', htrans, Bool.not_true,
      Bool.false_eq_true, if_neg, not_false_iff, hcond]

/-- Witness for C2 on the one-record store `[rW]` (stored version 1): expected version 7
is rejected without mutation (also through the service layer, which reports
`CONCURRENT_MODIFICATION`), while expected version 1 bumps the version to 2. -/
theorem updateWithVersion_conditional_witness :
    getRes [rW] 1 = some rW ∧
    updateWithVersion [rW] 1 pW 7 500 = ([rW], none) ∧
    updateReservationStatus sC2 1 .SEATED 7 500
      = (sC2, .error .CONCURRENT_MODIFICATION) ∧
    (updateWithVersion [rW] 1 pW 1 500).2
      = some (applyResPatch rW { pW with version := some 2 } 500) ∧
    (applyResPatch rW { pW with version := some 2 } 500).version = 2 := by
  have h := updateWithVersion_conditional [rW] 1 pW 7 500 rW (by rfl)
  have h1 := updateWithVersion_conditional [rW] 1 pW 1 500 rW (by rfl)
  refine ⟨by rfl, h.1 (by decide), ?_, (h1.2.1 rfl).1, (h1.2.1 rfl).2.1⟩
  exact h.2.2 sC2 rfl .SEATED (by decide) (by decide)

/-- Claim C3: the transition predicate is exactly the table PENDING to CONFIRMED/CANCELLED,
CONFIRMED to SEATED/CANCELLED/NO_SHOW, SEATED to COMPLETED (terminal states have no
successors), and any request outside it fails with `InvalidStatusTransition` leaving the
whole state, reservations and tables alike, untouched. -/
theorem statusTransition_rejection :
    (∀ src dst, isValidStatusTransition src dst = true ↔
      ((src = .PENDING ∧ (dst = .CONFIRMED ∨ dst = .CANCELLED)) ∨
       (src = .CONFIRMED ∧ (dst = .SEATED ∨ dst = .CANCELLED ∨ dst = .NO_SHOW)) ∨
       (src = .SEATED ∧ dst = .COMPLETED))) ∧
    (∀ (s : ServiceState) (id : Nat) (newStatus : ReservationStatus)
       (expectedVersion : Nat) (now : Int) (existing : Reservation),
      getRes s.reservations id = some existing →
      isValidStatusTransition existing.status newStatus = false →
      updateReservationStatus s id newStatus expectedVersion now
        = (s, .error .INVALID_STATUS_TRANSITION)) := by
  constructor
  · intro src dst
    cases src <;> cases dst <;> simp [isValidStatusTransition]
  · intro s id newStatus expectedVersion now existing hsome hbad
    simp only [updateReservationStatus, hsome, hbad, Bool.not_false, if_pos]

/-- Witness for C3: a COMPLETED reservation may not return to CONFIRMED; the request is
rejected and the state is unchanged. -/
theorem statusTransition_rejection_witness :
    getRes sC3.reservations 5 = some { rW with id := 5, status := .COMPLETED } ∧
    updateReservationStatus sC3 5 .CONFIRMED 1 0
      = (sC3, .error .INVALID_STATUS_TRANSITION) := by
  refine ⟨by rfl, ?_⟩
  exact statusTransition_rejection.2 sC3 5 .CONFIRMED 1 0
    { rW with id := 5, status := .COMPLETED } (by rfl) (by decide)

/-- Claim C4: `acquireLock` succeeds exactly when the key holds no live obstacle — no lock, an
expired lock, or a lock already owned by the caller (re-entrance); a failed acquisition
leaves the lock map untouched; and an expired lock is reclaimable by any owner. -/
theorem acquireLock_iff_reclaimable (m : LockMap) (k : LockKey) (owner : String)
    (t now : Int) :
    ((acquireLock m k owner t now).2 = true ↔ reclaimableBy m owner now k) ∧
    ((acquireLock m k owner t now).2 = false → (acquireLock m k owner t now).1 = m) ∧
    (∀ l, lockFind m k = some l → l.expiresAt ≤ now →
      (acquireLock m k owner t now).2 = true) := by
  have hiff : (acquireLock m k owner t now).2 = true ↔ reclaimableBy m owner now k := by
    cases hl : lockFind m k with
    | none =>
      simp only [acquireLock, hl, reclaimableBy]
      constructor
      · intro _ l hl'
        cases hl'
      · intro _
        trivial
    | some l =>
      have hrecl : reclaimableBy m owner now k ↔
          (l.expiresAt ≤ now ∨ l.lockedBy = owner) := by
        constructor
        · intro h
          exact h l hl
        · intro h l' hl'
          rw [hl] at hl'
          cases Option.some.inj hl'
          exact h
      rw [hrecl]
      simp only [acquireLock, hl]
      by_cases hc : (decide (l.expiresAt > now) && !(l.lockedBy == owner)) = true
      · have hc' : now < l.expiresAt ∧ ¬(l.lockedBy = owner) := by
          simpa using hc
        simp only [hc, if_pos]
        constructor
        · intro hfalse
          cases hfalse
        · intro hor
          rcases hor with hle | howner
          · omega
          · exact absurd howner hc'.2
      · have hc' : ¬(now < l.expiresAt) ∨ l.lockedBy = owner := by
          by_cases hexp : now < l.expiresAt
          · right
            by_contra howner
            exact hc (by simp [gt_iff_lt, hexp, howner])
          · left
            exact hexp
        simp only [hc, if_neg, Bool.false_eq_true, not_false_iff]
        constructor
        · intro _
          rcases hc' with hexp | howner
          · left
            omega
          · right
            exact howner
        · intro _
          trivial
  have hfailmap : (acquireLock m k owner t now).2 = false →
      (acquireLock m k owner t now).1 = m := by
    intro hfalse
    cases hl : lockFind m k with
    | none =>
      rw [show (acquireLock m k owner t now).2 = true by
        simp only [acquireLock, hl]] at hfalse
      cases hfalse
    | some l =>
      by_cases hc : (decide (l.expiresAt > now) && !(l.lockedBy == owner)) = true
      · simp only [acquireLock, hl, hc, if_pos]
      · rw [show (acquireLock m k owner t now).2 = true by
          simp only [acquireLock, hl, hc, if_neg, Bool.false_eq_true, not_false_iff]] at hfalse
        cases hfalse
  refine ⟨hiff, hfailmap, ?_⟩
  · intro l hl hle
    apply hiff.mpr
    intro l' hl'
    rw [hl] at hl'
    cases Option.some.inj hl'
    left
    exact hle

/-- Witness for C4 on `mW` (owner A holds (table, t1) until 120000): owner B fails
without mutating the map at instant 0, owner A re-acquires at instant 0, and owner B
succeeds at instant 200000 once the TTL has elapsed. -/
theorem acquireLock_iff_reclaimable_witness :
    (acquireLock mW (ResourceType.table, "t1") "B" 2 0).2 = false ∧
    (acquireLock mW (ResourceType.table, "t1") "B" 2 0).1 = mW ∧
    (acquireLock mW (ResourceType.table, "t1") "A" 2 0).2 = true ∧
    (acquireLock mW (ResourceType.table, "t1") "B" 2 200000).2 = true := by
  have hB := acquireLock_iff_reclaimable mW (ResourceType.table, "t1") "B" 2 0
  have hA := acquireLock_iff_reclaimable mW (ResourceType.table, "t1") "A" 2 0
  have hExp := acquireLock_iff_reclaimable mW (ResourceType.table, "t1") "B" 2 200000
  refine ⟨by decide, hB.2.1 (by decide), ?_, ?_⟩
  · exact hA.1.mpr (by intro l hl; right; cases hl; rfl)
  · exact hExp.2.2 { lockedBy := "A", lockedAt := 0, expiresAt := 120000 } (by rfl)
      (by decide)

/-- Setting a key makes it look up the new value. -/
lemma lockFind_set_self (k : LockKey) (v : LockInfo) :
    ∀ m : LockMap, lockFind (lockSet m k v) k = some v := by
  intro m
  induction m with
  | nil => simp [lockSet, lockFind]
  | cons e rest ih =>
    by_cases he : (e.1 == k) = true
    · simp [lockSet, lockFind, he]
    · simp [lockSet, lockFind, he, ih]

/-- Setting a key leaves every other key unchanged. -/
lemma lockFind_set_other (k k' : LockKey) (v : LockInfo) (h : k' ≠ k) :
    ∀ m : LockMap, lockFind (lockSet m k v) k' = lockFind m k' := by
  intro m
  induction m with
  | nil => simp [lockSet, lockFind, Ne.symm h]
  | cons e rest ih =>
    by_cases he : (e.1 == k) = true
    · have he1 : e.1 = k := by simpa using he
      simp [lockSet, lockFind, he, he1, Ne.symm h]
    · by_cases hek : (e.1 == k') = true
      · simp [lockSet, lockFind, he, hek]
      · simp [lockSet, lockFind, he, hek, ih]

/-- Deleting a key removes its entry entirely. -/
lemma lockFind_delete_self (k : LockKey) :
    ∀ m : LockMap, lockFind (lockDelete m k) k = none := by
  intro m
  induction m with
  | nil => rfl
  | cons e rest ih =>
    by_cases he : (e.1 == k) = true
    · simp [lockDelete, lockFind, he, ih]
    · simp [lockDelete, lockFind, he, ih]

/-- Deleting a key leaves every other key unchanged. -/
lemma lockFind_delete_other (k k' : LockKey) (h : k' ≠ k) :
    ∀ m : LockMap, lockFind (lockDelete m k) k' = lockFind m k' := by
  intro m
  induction m with
  | nil => rfl
  | cons e rest ih =>
    by_cases he : (e.1 == k) = true
    · have he1 : e.1 = k := by simpa using he
      have hek : (e.1 == k') = false := by simp [he1, Ne.symm h]
      simp [lockDelete, lockFind, he, hek, ih]
    · by_cases hek : (e.1 == k') = true
      · simp [lockDelete, lockFind, he, hek]
      · simp [lockDelete, lockFind, he, hek, ih]

/-- Releasing one key never disturbs another key. -/
lemma releaseLock_fst_other (m : LockMap) (k k' : LockKey) (owner : String)
    (h : k' ≠ k) : lockFind (releaseLock m k owner).1 k' = lockFind m k' := by
  cases hl : lockFind m k with
  | none => simp [releaseLock, hl]
  | some l =>
    by_cases ho : (l.lockedBy == owner) = true
    · simp [releaseLock, hl, ho, lockFind_delete_other k k' h m]
    · simp [releaseLock, hl, ho]

/-- Releasing a key the owner holds removes its entry. -/
lemma releaseLock_fst_owned (m : LockMap) (k : LockKey) (owner : String)
    (l : LockInfo) (hl : lockFind m k = some l) (ho : l.lockedBy = owner) :
    lockFind (releaseLock m k owner).1 k = none := by
  simp [releaseLock, hl, ho, lockFind_delete_self k m]

/-- Releasing an absent key is a no-op on the map. -/
lemma releaseLock_fst_absent (m : LockMap) (k : LockKey) (owner : String)
    (hl : lockFind m k = none) : (releaseLock m k owner).1 = m := by
  simp [releaseLock, hl]

/-- Rollback does not touch keys outside the released list. -/
lemma rollback_frame (owner : String) :
    ∀ (ks : List LockKey) (m : LockMap) (k : LockKey), k ∉ ks →
      lockFind (rollbackLocks owner m ks) k = lockFind m k := by
  intro ks
  induction ks with
  | nil =>
    intro m k _
    rfl
  | cons k0 ks ih =>
    intro m k hk
    have hk0 : k ≠ k0 := fun he => hk (he ▸ List.mem_cons_self k0 ks)
    have hks : k ∉ ks := fun he => hk (List.mem_cons_of_mem k0 he)
    simp only [rollbackLocks]
    rw [ih _ k hks, releaseLock_fst_other m k0 k owner hk0]

/-- Rollback never creates an entry. -/
lemma rollback_none (owner : String) :
    ∀ (ks : List LockKey) (m : LockMap) (k : LockKey), lockFind m k = none →
      lockFind (rollbackLocks owner m ks) k = none := by
  intro ks
  induction ks with
  | nil =>
    intro m k h
    exact h
  | cons k0 ks ih =>
    intro m k h
    simp only [rollbackLocks]
    apply ih
    by_cases hk0 : k = k0
    · subst hk0
      rw [releaseLock_fst_absent m k owner h]
      exact h
    · rw [releaseLock_fst_other m k0 k owner hk0]
      exact h

/-- Rolling back a list containing `k` erases `k`, provided its current entry (if any)
is owned by the rolling owner. -/
lemma rollback_mem (owner : String) :
    ∀ (ks : List LockKey) (m : LockMap) (k : LockKey), k ∈ ks →
      (lockFind m k = none ∨ ∃ l, lockFind m k = some l ∧ l.lockedBy = owner) →
      lockFind (rollbackLocks owner m ks) k = none := by
  intro ks
  induction ks with
  | nil =>
    intro m k hk
    cases hk
  | cons k0 ks ih =>
    intro m k hk hcase
    by_cases hk0 : k = k0
    · subst hk0
      simp only [rollbackLocks]
      apply rollback_none
      rcases hcase with hnone | ⟨l, hl, ho⟩
      · rw [releaseLock_fst_absent m k owner hnone]
        exact hnone
      · exact releaseLock_fst_owned m k owner l hl ho
    · have hks : k ∈ ks := by
        rcases List.mem_cons.mp hk with he | hm
        · exact absurd he hk0
        · exact hm
      simp only [rollbackLocks]
      apply ih _ k hks
      rw [releaseLock_fst_other m k0 k owner hk0]
      exact hcase

/-- A successful acquisition writes the fresh lock at the key. -/
lemma acquireLock_fst_of_true (m : LockMap) (k : LockKey) (owner : String)
    (t now : Int) (h : (acquireLock m k owner t now).2 = true) :
    (acquireLock m k owner t now).1 =
      lockSet m k { lockedBy := owner, lockedAt := now, expiresAt := addMinutes now t } := by
  cases hl : lockFind m k with
  | none => simp [acquireLock, hl]
  | some l =>
    by_cases hc : (decide (l.expiresAt > now) && !(l.lockedBy == owner)) = true
    · rw [show (acquireLock m k owner t now).2 = false by simp [acquireLock, hl, hc]] at h
      cases h
    · simp [acquireLock, hl, hc]

/-- A failed acquisition leaves the map untouched. -/
lemma acquireLock_fst_of_false (m : LockMap) (k : LockKey) (owner : String)
    (t now : Int) (h : (acquireLock m k owner t now).2 = false) :
    (acquireLock m k owner t now).1 = m := by
  cases hl : lockFind m k with
  | none =>
    rw [show (acquireLock m k owner t now).2 = true by simp [acquireLock, hl]] at h
    cases h
  | some l =>
    by_cases hc : (decide (l.expiresAt > now) && !(l.lockedBy == owner)) = true
    · simp [acquireLock, hl, hc]
    · rw [show (acquireLock m k owner t now).2 = true by simp [acquireLock, hl, hc]] at h
      cases h

/-- A successful acquisition certifies that the key held no live foreign lock. -/
lemma acquireLock_recl_of_true (m : LockMap) (k : LockKey) (owner : String)
    (t now : Int) (h : (acquireLock m k owner t now).2 = true) :
    reclaimableBy m owner now k := by
  intro l hl
  by_cases hc : (decide (l.expiresAt > now) && !(l.lockedBy == owner)) = true
  · rw [show (acquireLock m k owner t now).2 = false by simp [acquireLock, hl, hc]] at h
    cases h
  · by_cases hexp : now < l.expiresAt
    · right
      by_contra ho
      exact hc (by simp [gt_iff_lt, hexp, ho])
    · left
      omega

/-- Stable insertion preserves membership. -/
lemma mem_insertCmp {α : Type} (cmp : α → α → Int) (x a : α) :
    ∀ l, a ∈ insertCmp cmp x l ↔ a = x ∨ a ∈ l := by
  intro l
  induction l with
  | nil => simp [insertCmp]
  | cons y ys ih =>
    by_cases hc : cmp x y ≤ 0
    · simp [insertCmp, hc]
    · simp only [insertCmp, hc, if_neg, not_false_iff, List.mem_cons, ih]
      tauto

/-- The sort model preserves membership. -/
lemma mem_sortCmp {α : Type} (cmp : α → α → Int) (a : α) :
    ∀ l, a ∈ sortCmp cmp l ↔ a ∈ l := by
  intro l
  induction l with
  | nil => simp [sortCmp]
  | cons x xs ih =>
    have hstep : sortCmp cmp (x :: xs) = insertCmp cmp x (sortCmp cmp xs) := rfl
    rw [hstep, mem_insertCmp]
    simp [ih]

/-- Pointwise account of a failed multi-acquire loop: relative to the entry map, every
key is either untouched, or has been erased during rollback — and an erased key was
requested and held no live foreign lock to begin with; the keys already acquired by this
call (all owned by the caller in the entry map) are erased as well. -/
lemma acqLoop_false_char (owner : String) (t now : Int) :
    ∀ (ks : List LockKey) (m : LockMap) (acquired : List LockKey) (m' : LockMap),
      (∀ a ∈ acquired, ∃ l, lockFind m a = some l ∧ l.lockedBy = owner) →
      acqLoop owner t now m acquired ks = (m', false) →
      ∀ k, (k ∉ acquired ∧ lockFind m' k = lockFind m k) ∨
           (lockFind m' k = none ∧
             (k ∈ acquired ∨ (k ∈ ks ∧ reclaimableBy m owner now k))) := by
  intro ks
  induction ks with
  | nil =>
    intro m acquired m' _ heq k
    simp [acqLoop] at heq
  | cons k0 ks ih =>
    intro m acquired m' hinv heq k
    simp only [acqLoop] at heq
    cases hres2 : (acquireLock m k0 owner t now).2 with
    | true =>
      rw [if_pos hres2] at heq
      have hfst := acquireLock_fst_of_true m k0 owner t now hres2
      have hrecl0 := acquireLock_recl_of_true m k0 owner t now hres2
      have hinv' : ∀ a ∈ acquired ++ [k0],
          ∃ l, lockFind (acquireLock m k0 owner t now).1 a = some l
            ∧ l.lockedBy = owner := by
        intro a ha
        by_cases hak : a = k0
        · subst hak
          refine ⟨{ lockedBy := owner, lockedAt := now, expiresAt := addMinutes now t }, ?_, rfl⟩
          rw [hfst]
          exact lockFind_set_self a _ m
        · have ha' : a ∈ acquired := by
            rcases List.mem_append.mp ha with h1 | h2
            · exact h1
            · exact absurd (by simpa using h2) hak
          obtain ⟨l, hl, ho⟩ := hinv a ha'
          refine ⟨l, ?_, ho⟩
          rw [hfst, lockFind_set_other k0 a _ hak m]
          exact hl
      have IH := ih (acquireLock m k0 owner t now).1 (acquired ++ [k0]) m' hinv' heq k
      rcases IH with ⟨hnot, hEq⟩ | ⟨hnone, hcase⟩
      · have hknot : k ∉ acquired := fun hmem => hnot (List.mem_append_left _ hmem)
        have hkk0 : k ≠ k0 := by
          intro hkk
          exact hnot (List.mem_append_right _ (by simp [hkk]))
        left
        refine ⟨hknot, ?_⟩
        rw [hEq, hfst, lockFind_set_other k0 k _ hkk0 m]
      · right
        refine ⟨hnone, ?_⟩
        rcases hcase with hmem | ⟨hks, hrecl1⟩
        · rcases List.mem_append.mp hmem with h1 | h2
          · exact Or.inl h1
          · have hk0' : k = k0 := by simpa using h2
            subst hk0'
            exact Or.inr ⟨List.mem_cons_self k ks, hrecl0⟩
        · by_cases hkk0 : k = k0
          · subst hkk0
            exact Or.inr ⟨List.mem_cons_self k ks, hrecl0⟩
          · refine Or.inr ⟨List.mem_cons_of_mem k0 hks, ?_⟩
            intro l hl
            apply hrecl1
            rw [hfst, lockFind_set_other k0 k _ hkk0 m]
            exact hl
    | false =>
      rw [if_neg (by simp [hres2])] at heq
      have hfst := acquireLock_fst_of_false m k0 owner t now hres2
      rw [hfst] at heq
      have hm' : m' = rollbackLocks owner m acquired := by
        have := congrArg Prod.fst heq
        simpa using this.symm
      by_cases hk : k ∈ acquired
      · right
        constructor
        · rw [hm']
          apply rollback_mem owner acquired m k hk
          obtain ⟨l, hl, ho⟩ := hinv k hk
          exact Or.inr ⟨l, hl, ho⟩
        · exact Or.inl hk
      · left
        refine ⟨hk, ?_⟩
        rw [hm']
        exact rollback_frame owner acquired m k hk

/-- Claim C5, counterexample: owner A validly holds (table, a) and requests (table, a) and
(table, b) together while B validly holds (table, b). The call fails — and A's
pre-existing lock on (table, a) is gone afterwards, because the re-entrant acquisition
added it to the rollback list. This refutes the parenthetical of the claim: a lock the
same owner already held on a requested key is not left in place by a failed call. -/
theorem acquireMultipleLocks_drops_reentrant_lock :
    lockFind mC5 (ResourceType.table, "a")
      = some { lockedBy := "A", lockedAt := 0, expiresAt := 100000 } ∧
    acquireMultipleLocks mC5 [(ResourceType.table, "a"), (ResourceType.table, "b")]
        "A" 2 0
      = ([((ResourceType.table, "b"),
          { lockedBy := "B", lockedAt := 0, expiresAt := 100000 })], false) ∧
    lockFind (acquireMultipleLocks mC5
        [(ResourceType.table, "a"), (ResourceType.table, "b")] "A" 2 0).1
      (ResourceType.table, "a") = none := by
  refine ⟨rfl, ?_, ?_⟩ <;> decide

/-- Claim C5, amended: a failed `acquireMultipleLocks` changes the map only by erasing entries;
every key either keeps exactly its previous entry, or ends up absent — and a key can
only end up absent if it was requested and held no valid lock of a different owner. In
particular every valid foreign lock survives, no requested key remains locked by this
call, but a valid lock the caller already held on a requested key is erased rather than
left in place. -/
theorem acquireMultipleLocks_rollback (m : LockMap) (resources : List LockKey)
    (owner : String) (t now : Int) (m' : LockMap)
    (hfail : acquireMultipleLocks m resources owner t now = (m', false)) (k : LockKey) :
    lockFind m' k = lockFind m k ∨
    (lockFind m' k = none ∧ k ∈ resources ∧ reclaimableBy m owner now k) := by
  have hfail' : acqLoop owner t now m []
      (sortCmp (fun a b => strCmp (lockKeyStr a) (lockKeyStr b)) resources)
      = (m', false) := by
    simpa [acquireMultipleLocks] using hfail
  have h := acqLoop_false_char owner t now
    (sortCmp (fun a b => strCmp (lockKeyStr a) (lockKeyStr b)) resources) m [] m'
    (by intro a ha; cases ha) hfail' k
  rcases h with ⟨_, hEq⟩ | ⟨hnone, hcase⟩
  · exact Or.inl hEq
  · rcases hcase with h0 | ⟨hmem, hrecl⟩
    · cases h0
    · exact Or.inr ⟨hnone, (mem_sortCmp _ k resources).mp hmem, hrecl⟩

/-- Witness for the amended C5 on the concrete rollback scenario, instantiated at the
key (table, b): B's pre-existing valid lock survives the failed call unchanged. -/
theorem acquireMultipleLocks_rollback_witness :
    acquireMultipleLocks mC5 [(ResourceType.table, "a"), (ResourceType.table, "b")]
        "A" 2 0
      = ([((ResourceType.table, "b"),
          { lockedBy := "B", lockedAt := 0, expiresAt := 100000 })], false) ∧
    (lockFind [((ResourceType.table, "b"),
          { lockedBy := "B", lockedAt := 0, expiresAt := 100000 })]
        (ResourceType.table, "b")
      = lockFind mC5 (ResourceType.table, "b") ∨
    (lockFind [((ResourceType.table, "b"),
          { lockedBy := "B", lockedAt := 0, expiresAt := 100000 })]
        (ResourceType.table, "b") = none ∧
      (ResourceType.table, "b")
        ∈ [(ResourceType.table, "a"), (ResourceType.table, "b")] ∧
      reclaimableBy mC5 "A" 0 (ResourceType.table, "b"))) := by
  have hcomp : acquireMultipleLocks mC5
      [(ResourceType.table, "a"), (ResourceType.table, "b")] "A" 2 0
      = ([((ResourceType.table, "b"),
          { lockedBy := "B", lockedAt := 0, expiresAt := 100000 })], false) := by
    decide
  exact ⟨hcomp, acquireMultipleLocks_rollback mC5
    [(ResourceType.table, "a"), (ResourceType.table, "b")] "A" 2 0 _ hcomp
    (ResourceType.table, "b")⟩

/-- Claim C6: evaluated in a fixed UTC+1 timezone at noon UTC, `getDayBoundsInTimezone`
returns the UTC midnight pair (0, 86399999) — but the local midnight of the observed
calendar day is the instant -3600000, and the returned end is 24h - 1ms after the start,
not 24h. The code anchors the day at `Date.UTC` midnight instead of the timezone's local
midnight and returns a closed end instead of the half-open `start + 24h`. -/
theorem dayBounds_utc_anchored :
    getDayBoundsInTimezone tzC6 43200000 = some (0, 86399999) ∧
    dayBoundsSpec 3600000 43200000 = (-3600000, 82800000) ∧
    ((0 : Int), (86399999 : Int)) ≠ dayBoundsSpec 3600000 43200000 ∧
    (86399999 : Int) - 0 ≠ 86400000 := by
  refine ⟨by decide, by decide, by decide, by decide⟩

/-- Claim C1: from a state satisfying the pairwise non-overlap invariant — one AVAILABLE
table carrying a future CONFIRMED reservation — `handleWalkIn` succeeds and creates a
SEATED reservation on the same table whose interval overlaps the CONFIRMED one,
violating the invariant: the walk-in path checks only the table status, never the
table's active reservations. -/
theorem walkIn_overlap_bug :
    intervalsDisjoint stateC1.reservations = true ∧
    (handleWalkIn stateC1 reqC1 0 7 8).2.isOk = true ∧
    intervalsDisjoint (handleWalkIn stateC1 reqC1 0 7 8).1.reservations = false := by
  refine ⟨by decide, by decide, by decide⟩

/-- The head of the end-time sort is a reservation of minimal end time. -/
lemma sortCmp_endTime_head :
    ∀ (l : List Reservation) (r : Reservation) (rest : List Reservation),
      sortCmp endTimeCmp l = r :: rest →
      r ∈ l ∧ ∀ x ∈ l, r.endTime ≤ x.endTime := by
  intro l
  induction l with
  | nil =>
    intro r rest h
    cases h
  | cons y ys ih =>
    intro r rest h
    have hstep : sortCmp endTimeCmp (y :: ys) = insertCmp endTimeCmp y (sortCmp endTimeCmp ys) := rfl
    rw [hstep] at h
    cases hys : sortCmp endTimeCmp ys with
    | nil =>
      rw [hys] at h
      simp only [insertCmp] at h
      cases h
      constructor
      · exact List.mem_cons_self y ys
      · intro x hx
        rcases List.mem_cons.mp hx with rfl | hx'
        · exact le_refl _
        · have : x ∈ sortCmp endTimeCmp ys := (mem_sortCmp endTimeCmp x ys).mpr hx'
          rw [hys] at this
          cases this
    | cons z zs =>
      rw [hys] at h
      have hz := ih z zs hys
      by_cases hc : endTimeCmp y z ≤ 0
      · rw [show insertCmp endTimeCmp y (z :: zs) = y :: z :: zs by
          simp [insertCmp, hc]] at h
        cases h
        constructor
        · exact List.mem_cons_self y ys
        · intro x hx
          rcases List.mem_cons.mp hx with rfl | hx'
          · exact le_refl _
          · have hyz : y.endTime ≤ z.endTime := by
              simp only [endTimeCmp] at hc
              omega
            exact le_trans hyz (hz.2 x hx')
      · rw [show insertCmp endTimeCmp y (z :: zs) = z :: insertCmp endTimeCmp y zs by
          simp [insertCmp, hc]] at h
        cases h
        constructor
        · exact List.mem_cons_of_mem y hz.1
        · intro x hx
          rcases List.mem_cons.mp hx with rfl | hx'
          · simp only [endTimeCmp] at hc
            omega
          · exact hz.2 x hx'

/-- Claim C8, counterexample: with the only fitting table OCCUPIED and no SEATED reservation,
`getEstimatedWaitTime` returns a numeric `minutes := -1` sentinel (with an explanatory
message), not a result free of a numeric minutes value — the claim as stated is false
about the return shape. -/
theorem waitTime_negative_sentinel :
    getEstimatedWaitTime stateC8 2 0
      = { minutes := -1,
          message := "Unable to estimate wait time. All tables are occupied with no scheduled end time." } := by
  decide

/-- Claim C8, amended: with a fitting AVAILABLE table the estimate is 0 minutes; with none
free, the estimate is max 0 of the ceiled distance to the earliest end among SEATED
reservations on fitting tables; and with none of those either, the function returns the
numeric sentinel -1 together with an explanatory message (rather than a result without
a minutes number). -/
theorem waitTime_cases (s : ServiceState) (partySize : Int) (now : Int) :
    (findAvailableForPartySize s.tables partySize ≠ [] →
      getEstimatedWaitTime s partySize now
        = { minutes := 0, message := "Tables available now!" }) ∧
    (findAvailableForPartySize s.tables partySize = [] →
      seatedEligible s partySize = [] →
      getEstimatedWaitTime s partySize now
        = { minutes := -1,
            message := "Unable to estimate wait time. All tables are occupied with no scheduled end time." }) ∧
    (findAvailableForPartySize s.tables partySize = [] →
      seatedEligible s partySize ≠ [] →
      ∃ r, r ∈ seatedEligible s partySize ∧
        (∀ x ∈ seatedEligible s partySize, r.endTime ≤ x.endTime) ∧
        (getEstimatedWaitTime s partySize now).minutes
          = max 0 (ceilDiv (r.endTime - now) msPerMinute)) := by
  refine ⟨?_, ?_, ?_⟩
  · intro hne
    have hpos : 0 < (findAvailableForPartySize s.tables partySize).length :=
      List.length_pos.mpr hne
    simp only [getEstimatedWaitTime, gt_iff_lt, hpos, if_pos]
  · intro hempty helig
    simp only [getEstimatedWaitTime, hempty, helig, gt_iff_lt, List.length_nil,
      lt_self_iff_false, if_neg, not_false_iff, sortCmp, List.foldr_nil]
  · intro hempty helig
    cases hs : sortCmp endTimeCmp (seatedEligible s partySize) with
    | nil =>
      obtain ⟨x, hx⟩ := List.exists_mem_of_ne_nil _ helig
      have : x ∈ sortCmp endTimeCmp (seatedEligible s partySize) :=
        (mem_sortCmp endTimeCmp x _).mpr hx
      rw [hs] at this
      cases this
    | cons r rest =>
      obtain ⟨hmem, hmin⟩ := sortCmp_endTime_head _ r rest hs
      refine ⟨r, hmem, hmin, ?_⟩
      simp only [getEstimatedWaitTime, hempty, gt_iff_lt, List.length_nil,
        lt_self_iff_false, if_neg, not_false_iff, hs]

/-- Witness for the amended C8: a fitting AVAILABLE table gives 0 minutes; the SEATED
reservation ending at 720000 on the occupied capacity-2 table gives exactly 12 minutes
at instant 0. -/
theorem waitTime_cases_witness :
    getEstimatedWaitTime stateC7 2 0 = { minutes := 0, message := "Tables available now!" } ∧
    (∃ r, r ∈ seatedEligible stateC8b 2 ∧
      (∀ x ∈ seatedEligible stateC8b 2, r.endTime ≤ x.endTime) ∧
      (getEstimatedWaitTime stateC8b 2 0).minutes
        = max 0 (ceilDiv (r.endTime - 0) msPerMinute)) ∧
    (getEstimatedWaitTime stateC8b 2 0).minutes = 12 := by
  refine ⟨(waitTime_cases stateC7 2 0).1 (by decide), ?_, by decide⟩
  exact (waitTime_cases stateC8b 2 0).2.2 (by decide) (by decide)

/-- Membership characterisation of `findAvailableTables` (with no excluded
reservation): exactly the stored tables of sufficient capacity, in service, with no
active reservation meeting the window. -/
lemma mem_findAvailableTables (s : ServiceState) (st en p : Int) (t : Table) :
    t ∈ findAvailableTables s st en p none ↔
      (t ∈ s.tables ∧ t.capacity ≥ p ∧ t.status ≠ TableStatus.OUT_OF_SERVICE ∧
        ∀ r ∈ s.reservations, isActiveStatus r.status = true → r.tableId = some t.id →
          ¬(r.startTime < en ∧ r.endTime > st)) := by
  have hfilter : ∀ (rlist : List Reservation) (q : Reservation → Bool),
      ((rlist.filter q).length == 0) = true ↔ ∀ r ∈ rlist, q r = false := by
    intro rlist q
    constructor
    · intro hq r hr
      cases hqq : q r
      · rfl
      · exfalso
        have hmemf : r ∈ rlist.filter q := List.mem_filter.mpr ⟨hr, hqq⟩
        have hlen : (rlist.filter q).length = 0 := by simpa using hq
        rw [List.length_eq_zero] at hlen
        rw [hlen] at hmemf
        cases hmemf
    · intro hall
      have hnil : rlist.filter q = [] := by
        rw [List.filter_eq_nil_iff]
        intro a ha
        simp [hall a ha]
      simp [hnil]
  unfold findAvailableTables findByTimeRange
  rw [mem_sortCmp]
  simp only [List.mem_filter, List.filter_filter, Bool.and_eq_true, decide_eq_true_eq,
    Bool.not_eq_true', beq_eq_false_iff_ne, ne_eq, hfilter]
  constructor
  · rintro ⟨hmem, hlen, hoos, hcap⟩
    refine ⟨hmem, hcap, hoos, ?_⟩
    rintro r hr hact htid ⟨h1, h2⟩
    have hq := hlen r hr
    simp [htid, hact, h1, h2] at hq
  · rintro ⟨hmem, hcap, hoos, hall⟩
    refine ⟨hmem, ?_, hoos, hcap⟩
    intro r hr
    by_cases htid : r.tableId = some t.id
    · by_cases hact : isActiveStatus r.status = true
      · have hnover := hall r hr hact htid
        cases hd1 : decide (r.startTime < en) <;> cases hd2 : decide (r.endTime > st)
        · simp [htid, hact, hd1, hd2]
        · simp [htid, hact, hd1, hd2]
        · simp [htid, hact, hd1, hd2]
        · exact absurd ⟨of_decide_eq_true hd1, of_decide_eq_true hd2⟩ hnover
      · have hact' : isActiveStatus r.status = false := by
          cases h2 : isActiveStatus r.status
          · rfl
          · exact absurd h2 hact
        simp [hact']
    · have htid' : (r.tableId == some t.id) = false := by
        simp [htid]
      simp [htid']

/-- Claim C7, counterexample: `checkAvailability` performs no party-size bounds check — a
request with party size 0 (below the documented lower bound 1) succeeds and returns a
slot for the capacity-2 table instead of a party-size validation failure. -/
theorem checkAvailability_no_partySize_check :
    reqC7.partySize < 1 ∧
    checkAvailability stateC7 reqC7 = .ok [mkSlot tC7 1000 5401000] := by
  exact ⟨by decide, by rfl⟩

/-- Claim C7, amended: `checkAvailability` validates only the timezone; on a valid timezone it
returns one available-marked slot per eligible table over the window
`[start, start + duration)` with the duration defaulting to 90 minutes — eligible
meaning sufficient capacity, not OUT_OF_SERVICE, and no active reservation meeting the
window. Party size is not bounds-checked. -/
theorem checkAvailability_slots (s : ServiceState) (request : AvailabilityRequest)
    (slots : List AvailabilitySlot)
    (htz : (request.timezone.getD UTC_TIMEZONE).valid = true)
    (hok : checkAvailability s request = .ok slots) :
    (∀ sl ∈ slots,
      sl.startTime = request.startTime ∧
      sl.endTime = calculateEndTime request.startTime
        (request.durationMinutes.getD DEFAULT_DURATION_MINUTES) ∧
      sl.isAvailable = true) ∧
    (∀ sl ∈ slots, ∃ t, t ∈ s.tables ∧ sl.tableId = t.id ∧
      sl.tableCapacity = t.capacity ∧
      t.capacity ≥ request.partySize ∧ t.status ≠ TableStatus.OUT_OF_SERVICE ∧
      ∀ r ∈ s.reservations, isActiveStatus r.status = true → r.tableId = some t.id →
        ¬(r.startTime < calculateEndTime request.startTime
            (request.durationMinutes.getD DEFAULT_DURATION_MINUTES)
          ∧ r.endTime > request.startTime)) ∧
    (∀ t ∈ s.tables, t.capacity ≥ request.partySize →
      t.status ≠ TableStatus.OUT_OF_SERVICE →
      (∀ r ∈ s.reservations, isActiveStatus r.status = true → r.tableId = some t.id →
        ¬(r.startTime < calculateEndTime request.startTime
            (request.durationMinutes.getD DEFAULT_DURATION_MINUTES)
          ∧ r.endTime > request.startTime)) →
      ∃ sl, sl ∈ slots ∧ sl.tableId = t.id) := by
  have hcomp : checkAvailability s request
      = .ok ((findAvailableTables s request.startTime
          (calculateEndTime request.startTime
            (request.durationMinutes.getD DEFAULT_DURATION_MINUTES))
          request.partySize none).map
        (fun t => mkSlot t request.startTime
          (calculateEndTime request.startTime
            (request.durationMinutes.getD DEFAULT_DURATION_MINUTES)))) := by
    simp [checkAvailability, htz]
  rw [hcomp] at hok
  have hslots := (Except.ok.inj hok).symm
  subst hslots
  refine ⟨?_, ?_, ?_⟩
  · intro sl hsl
    obtain ⟨t, _, rfl⟩ := List.mem_map.mp hsl
    exact ⟨rfl, rfl, rfl⟩
  · intro sl hsl
    obtain ⟨t, hmemT, rfl⟩ := List.mem_map.mp hsl
    obtain ⟨h1, h2, h3, h4⟩ := (mem_findAvailableTables s request.startTime _ _ t).mp hmemT
    exact ⟨t, h1, rfl, rfl, h2, h3, h4⟩
  · intro t hmem hcap hoos hnores
    have hin : t ∈ findAvailableTables s request.startTime
        (calculateEndTime request.startTime
          (request.durationMinutes.getD DEFAULT_DURATION_MINUTES))
        request.partySize none :=
      (mem_findAvailableTables s request.startTime _ _ t).mpr ⟨hmem, hcap, hoos, hnores⟩
    exact ⟨_, List.mem_map_of_mem _ hin, rfl⟩

/-- Witness for the amended C7 at the one-table state with an in-bounds request: a
single slot for the table over [1000, 5401000), marked available. -/
theorem checkAvailability_slots_witness :
    checkAvailability stateC7 reqC7b = .ok [mkSlot tC7 1000 5401000] ∧
    (mkSlot tC7 1000 5401000).startTime = 1000 ∧
    (mkSlot tC7 1000 5401000).isAvailable = true ∧
    (∃ sl, sl ∈ [mkSlot tC7 1000 5401000] ∧ sl.tableId = tC7.id) := by
  have hok : checkAvailability stateC7 reqC7b = .ok [mkSlot tC7 1000 5401000] := by
    rfl
  have h := checkAvailability_slots stateC7 reqC7b [mkSlot tC7 1000 5401000] rfl hok
  have hsl := h.1 (mkSlot tC7 1000 5401000) (by simp)
  refine ⟨hok, hsl.1, hsl.2.2, ?_⟩
  exact h.2.2 tC7 (by simp [stateC7]) (by decide) (by decide)
    (by intro r hr; simp [stateC7] at hr)

/-- The while loop of the slot search equals a probe of the finite arithmetic list of
instants below the horizon: the loop terminates after exactly the listed probes. -/
lemma searchSlots_probe (s : ServiceState) (suitable : List Table) (d : Int) :
    ∀ (n : Nat) (c : Int),
      searchSlots s suitable d c (c + (n : Int) * (SLOT_DURATION_MINUTES * msPerMinute))
        = probeSlots s suitable d
            ((List.range n).map
              (fun (k : Nat) => c + (k : Int) * (SLOT_DURATION_MINUTES * msPerMinute))) := by
  intro n
  induction n with
  | zero =>
    intro c
    rw [searchSlots]
    simp [probeSlots]
  | succ n ih =>
    intro c
    rw [searchSlots]
    have hc : c < c + ((n + 1 : Nat) : Int) * (SLOT_DURATION_MINUTES * msPerMinute) := by
      simp only [SLOT_DURATION_MINUTES, msPerMinute]
      push_cast
      nlinarith [Int.ofNat_nonneg n]
    rw [dif_pos hc]
    have hhead : (List.range (n + 1)).map
        (fun (k : Nat) => c + (k : Int) * (SLOT_DURATION_MINUTES * msPerMinute))
        = c :: (List.range n).map
            (fun (k : Nat) => (c + SLOT_DURATION_MINUTES * msPerMinute)
              + (k : Int) * (SLOT_DURATION_MINUTES * msPerMinute)) := by
      rw [List.range_succ_eq_map, List.map_cons, List.map_map]
      refine congrArg₂ _ (by push_cast; ring) ?_
      apply List.map_congr_left
      intro a _
      simp only [Function.comp_apply]
      push_cast
      ring
    cases hf : firstAvailableTable s suitable c (addMinutes c d) with
    | some t =>
      rw [hhead]
      simp [probeSlots, List.findSome?_cons, hf]
    | none =>
      rw [hhead]
      have harith : c + ((n + 1 : Nat) : Int) * (SLOT_DURATION_MINUTES * msPerMinute)
          = (c + SLOT_DURATION_MINUTES * msPerMinute)
            + (n : Int) * (SLOT_DURATION_MINUTES * msPerMinute) := by
        push_cast
        ring
      have hstep : addMinutes c SLOT_DURATION_MINUTES
          = c + SLOT_DURATION_MINUTES * msPerMinute := rfl
      rw [harith, hstep, ih (c + SLOT_DURATION_MINUTES * msPerMinute)]
      simp [probeSlots, List.findSome?_cons, hf]

/-- Claim C9: `getNextAvailableSlot` terminates after a bounded search — it equals the probe
of the explicit 48-element list `probeTimes fromTime` (the `fromTime` instant first,
then 47 fixed 30-minute steps), every probed instant lies in the half-open 24-hour
horizon `[fromTime, fromTime + 24h)`, the first available (instant, table) pair is
returned, and with no table of sufficient capacity the result is an immediate
empty-success. -/
theorem nextAvailableSlot_bounded (s : ServiceState) (partySize : Int)
    (fromTime : Int) (durationMinutes : Int) :
    (getNextAvailableSlot s partySize fromTime durationMinutes
      = .ok (if (suitableTablesFor s partySize).length = 0 then none
          else probeSlots s (suitableTablesFor s partySize) durationMinutes
            (probeTimes fromTime))) ∧
    (∀ ti ∈ probeTimes fromTime,
      fromTime ≤ ti ∧ ti < addMinutes fromTime (24 * 60)) ∧
    ((∀ t ∈ s.tables, t.capacity < partySize) →
      getNextAvailableSlot s partySize fromTime durationMinutes = .ok none) := by
  have hmain : getNextAvailableSlot s partySize fromTime durationMinutes
      = .ok (if (suitableTablesFor s partySize).length = 0 then none
          else probeSlots s (suitableTablesFor s partySize) durationMinutes
            (probeTimes fromTime)) := by
    by_cases hempty : (suitableTablesFor s partySize).length = 0
    · simp [getNextAvailableSlot, hempty]
    · have hne : ((suitableTablesFor s partySize).length == 0) = false := by
        simp [hempty]
      rw [if_neg hempty]
      cases hf : firstAvailableTable s (suitableTablesFor s partySize) fromTime
          (addMinutes fromTime durationMinutes) with
      | some t =>
        simp [getNextAvailableSlot, hne, hf, probeTimes, probeSlots,
          List.findSome?_cons]
      | none =>
        have h47 := searchSlots_probe s (suitableTablesFor s partySize)
          durationMinutes 47 (addMinutes fromTime SLOT_DURATION_MINUTES)
        have harith : addMinutes fromTime SLOT_DURATION_MINUTES
            + ((47 : Nat) : Int) * (SLOT_DURATION_MINUTES * msPerMinute)
            = addMinutes fromTime (24 * 60) := by
          norm_num [addMinutes, SLOT_DURATION_MINUTES, msPerMinute]
          ring
        rw [harith] at h47
        simp [getNextAvailableSlot, hne, hf, probeTimes, probeSlots,
          List.findSome?_cons]
        norm_num at h47
        simpa [probeSlots] using h47
  refine ⟨hmain, ?_, ?_⟩
  · intro ti hti
    rcases List.mem_cons.mp hti with rfl | htail
    · constructor
      · exact le_refl _
      · simp only [addMinutes, msPerMinute]
        omega
    · obtain ⟨k, hk, rfl⟩ := List.mem_map.mp htail
      have hk47 : k < 47 := List.mem_range.mp hk
      constructor
      · simp only [addMinutes, SLOT_DURATION_MINUTES, msPerMinute]
        have : (0 : Int) ≤ (k : Int) * (30 * 60000) := by positivity
        omega
      · simp only [addMinutes, SLOT_DURATION_MINUTES, msPerMinute]
        have hkle : ((k : Int)) ≤ 46 := by exact_mod_cast Nat.lt_succ_iff.mp hk47
        nlinarith
  · intro hcap
    have hnil : suitableTablesFor s partySize = [] := by
      unfold suitableTablesFor
      have h1 : s.tables.filter (fun t => decide (t.capacity ≥ partySize)) = [] := by
        rw [List.filter_eq_nil_iff]
        intro t ht
        simp only [decide_eq_true_eq]
        intro hge
        exact absurd hge (not_le.mpr (hcap t ht))
      rw [h1]
      rfl
    simp [getNextAvailableSlot, hnil]

/-- Witness for C9: a probe instant 30 minutes in lies inside the horizon, and a state
whose only table seats 1 yields an immediate empty success for a party of 5. -/
theorem nextAvailableSlot_bounded_witness :
    ((0 : Int) ≤ 1800000 ∧ (1800000 : Int) < addMinutes 0 (24 * 60)) ∧
    getNextAvailableSlot stateC9 5 0 90 = .ok none := by
  have h := nextAvailableSlot_bounded stateC9 5 0 90
  refine ⟨h.2.1 1800000 (by decide), h.2.2 ?_⟩
  intro t ht
  simp only [stateC9, List.mem_singleton] at ht
  rw [ht]
  decide

end Tabletop
